import Mathlib

/-!
Verification of `scripts/ward_map.py`: a linear pipeline that loads a
ward-level polygon collection, cleans its attributes, partitions it into a
highlighted subset (Block 6, wards 429-434) and a context subset, normalizes
the coordinate reference system to EPSG:4326, and renders/exports the result.

The embedding models a feature collection as an ordered list of records with
a ward identifier, a population attribute and a geometry (a list of rational
coordinate points).  Library calls whose numeric content is external
(coordinate reprojection) are modelled as an abstract point transformation
that is passed in as a parameter; the geometric union is modelled as the
combined vertex list, which is enough to capture definedness of the centroid.
-/

/-- A planar coordinate pair. -/
abbrev Point := ℚ × ℚ

/-- A polygon geometry, kept at the abstraction level of its vertex list. -/
abbrev Geom := List Point

/-- A raw attribute value of the `Ward_No` column as loaded from the file:
either a numeric value or a non-numeric string. -/
inductive WardRaw where
  | numeric (n : Int)
  | nonNumeric (s : String)
deriving DecidableEq, Repr

/-- The coercion `astype(int)` applied to one `Ward_No` cell: numeric values convert,
non-numeric values raise (modelled as `none`). -/
def astype_int : WardRaw → Option Int
  | .numeric n => some n
  | .nonNumeric _ => none

/-- A record of the loaded collection: `Ward_No` cell, the value of the
`SUM_Final_` column (meaningful only when that column is present in the
frame), and the geometry. -/
structure RawRec where
  Ward_No : WardRaw
  popVal : ℚ
  geometry : Geom
deriving DecidableEq, Repr

/-- The loaded feature collection: column names, ordered records, and the
coordinate reference system (EPSG code, `none` when undefined). -/
structure RawFrame where
  columns : List String
  records : List RawRec
  crs : Option Int
deriving DecidableEq, Repr

/-- A record after cleanup: integer `Ward_No`, canonical `Population`
attribute (`none` when the population column was absent), geometry. -/
structure CleanRec where
  Ward_No : Int
  Population : Option ℚ
  geometry : Geom
deriving DecidableEq, Repr

/-- The cleaned feature collection. -/
structure CleanFrame where
  columns : List String
  records : List CleanRec
  crs : Option Int
deriving DecidableEq, Repr

/-- Cleanup of one record: coerce `Ward_No` with `astype(int)`; the
`Population` value is the renamed `SUM_Final_` value when that column is
present (`hasSum`), else `None`. -/
def cleanRecord (hasSum : Bool) (r : RawRec) : Option CleanRec :=
  (astype_int r.Ward_No).map (fun w =>
    { Ward_No := w
      Population := if hasSum then some r.popVal else none
      geometry := r.geometry })

/-- Cleanup of the record list; `none` as soon as one `Ward_No` cell is
non-numeric (the `astype` call raises on the whole column). -/
def cleanRecords (hasSum : Bool) : List RawRec → Option (List CleanRec)
  | [] => some []
  | r :: rs =>
    match cleanRecord hasSum r, cleanRecords hasSum rs with
    | some c, some cs => some (c :: cs)
    | _, _ => none

/-- Column renaming of the cleanup step: `SUM_Final_` becomes `Population`
when present; otherwise a `Population` column is appended (the fallback
assignment creates it). -/
def renameColumns (cols : List String) : List String :=
  if cols.contains "SUM_Final_" then
    cols.map (fun c => if c = "SUM_Final_" then "Population" else c)
  else cols ++ ["Population"]

/-- The Cleaner: `gdf_clean = gdf.copy()`, `astype(int)` on `Ward_No`, then
rename `SUM_Final_` to `Population` or create a null `Population` column.
Returns the raised error message when the coercion fails. -/
def cleanup (f : RawFrame) : Except String CleanFrame :=
  match cleanRecords (f.columns.contains "SUM_Final_") f.records with
  | none => .error "invalid literal for int() with base 10"
  | some recs =>
    .ok { columns := renameColumns f.columns, records := recs, crs := f.crs }

/-- The hardcoded Block 6 ward identifiers. -/
def block6_wards : List Int := [429, 430, 431, 432, 433, 434]

/-- The membership test `gdf_clean["Ward_No"].isin(block6_wards)`. -/
def isin_block6 (r : CleanRec) : Bool := block6_wards.contains r.Ward_No

/-- The highlighted subset: `gdf_clean[gdf_clean["Ward_No"].isin(block6_wards)].copy()`. -/
def block6_gdf (f : CleanFrame) : CleanFrame :=
  { f with records := f.records.filter (fun r => isin_block6 r) }

/-- The context subset: `gdf_clean[~gdf_clean["Ward_No"].isin(block6_wards)].copy()`. -/
def other_gdf (f : CleanFrame) : CleanFrame :=
  { f with records := f.records.filter (fun r => !isin_block6 r) }

/-- The reprojection guard `gdf_clean.crs is None or gdf_clean.crs.to_epsg() != 4326`. -/
def crs_mismatch (c : Option Int) : Bool :=
  match c with
  | none => true
  | some e => e != 4326

/-- The call `to_crs(epsg=4326)`: applies the library reprojection (an abstract point
transformation `t`) to every coordinate and tags the frame with EPSG:4326. -/
def to_crs (t : Point → Point) (f : CleanFrame) : CleanFrame :=
  { columns := f.columns
    records := f.records.map (fun r => { r with geometry := r.geometry.map t })
    crs := some 4326 }

/-- The three collections alive after the partition step. -/
structure SplitState where
  gdf_clean : CleanFrame
  block6 : CleanFrame
  other : CleanFrame
deriving DecidableEq, Repr

/-- The Projector: when the full collection's CRS is undefined or differs
from EPSG:4326, all three collections are reprojected; otherwise nothing
happens. -/
def projector (t : Point → Point) (s : SplitState) : SplitState :=
  if crs_mismatch s.gdf_clean.crs then
    { gdf_clean := to_crs t s.gdf_clean
      block6 := to_crs t s.block6
      other := to_crs t s.other }
  else s

/-- The `unary_union` of a frame's geometry column, at the vertex-list level of
abstraction: the combined vertex list of all geometries. -/
def unary_union (f : CleanFrame) : List Point :=
  (f.records.map (fun r => r.geometry)).flatten

/-- Centroid of a vertex list: undefined on the empty list (the union of no
geometries has no centroid point), the coordinate average otherwise. -/
def centroid_of (pts : List Point) : Option Point :=
  match pts with
  | [] => none
  | _ =>
    some ((pts.map Prod.fst).sum / pts.length, (pts.map Prod.snd).sum / pts.length)

/-- The center `block6_gdf.geometry.unary_union.centroid`: the Renderer's map
center, undefined when the highlighted subset carries no geometry. -/
def map_center (b : CleanFrame) : Option Point :=
  centroid_of (unary_union b)

/-- The script state after the Cleaner ran: the loader's collection `gdf`
and the cleaned copy `gdf_clean`. -/
structure CleanedState where
  gdf : RawFrame
  gdf_clean : CleanFrame
deriving DecidableEq, Repr

/-- The Loader's output (`gdf = gpd.read_file(...)`). -/
def load_step (input : RawFrame) : RawFrame := input

/-- The Cleaner step at the script level: cleanup operates on
`gdf.copy()`, so the state keeps the loaded frame unchanged next to the
cleaned copy. -/
def clean_step (g : RawFrame) : Except String CleanedState :=
  (cleanup g).map (fun c => { gdf := g, gdf_clean := c })

/-! ## Helper lemmas -/

/-- The `isin` test succeeds exactly on the Block 6 identifiers. -/
theorem isin_block6_iff (r : CleanRec) :
    isin_block6 r = true ↔ r.Ward_No ∈ block6_wards := by
  simp [isin_block6]

/-! ## Claims about the Partitioner -/

/-- C1: the partition is exhaustive and disjoint: every record of the cleaned
collection is in exactly one of the highlighted and context subsets, the
union of the two subsets has the same members as the full collection, and
their sizes sum to the total record count. -/
theorem partition_exhaustive_disjoint (f : CleanFrame) :
    (∀ r : CleanRec, r ∈ f.records ↔
      (r ∈ (block6_gdf f).records ∨ r ∈ (other_gdf f).records)) ∧
    (∀ r : CleanRec, ¬(r ∈ (block6_gdf f).records ∧ r ∈ (other_gdf f).records)) ∧
    (block6_gdf f).records.length + (other_gdf f).records.length = f.records.length := by
  refine ⟨?_, ?_, ?_⟩
  · intro r
    constructor
    · intro hr
      by_cases h : isin_block6 r
      · exact Or.inl (List.mem_filter.mpr ⟨hr, h⟩)
      · exact Or.inr (List.mem_filter.mpr ⟨hr, by simp [h]⟩)
    · rintro (h | h) <;> exact (List.mem_filter.mp h).1
  · rintro r ⟨h1, h2⟩
    have e1 := (List.mem_filter.mp h1).2
    have e2 := (List.mem_filter.mp h2).2
    rw [e1] at e2
    simp at e2
  · exact (List.length_eq_length_filter_add (fun r => isin_block6 r)).symm

/-- C2: every record of the highlighted subset has its ward identifier in the
fixed six-element target set and is a record of the input collection. -/
theorem block6_subset_targets (f : CleanFrame) (r : CleanRec)
    (h : r ∈ (block6_gdf f).records) :
    r.Ward_No ∈ block6_wards ∧ r ∈ f.records := by
  obtain ⟨hm, hp⟩ := List.mem_filter.mp h
  exact ⟨(isin_block6_iff r).mp hp, hm⟩

/-- A cleaned record with a given ward number, null population and empty
geometry; used to build concrete collections. -/
def exRec (n : Int) : CleanRec :=
  { Ward_No := n, Population := none, geometry := [] }

/-- A concrete two-record cleaned collection, one Block 6 ward and one other. -/
def exFrameA : CleanFrame :=
  { columns := ["Ward_No", "Population", "geometry"]
    records := [exRec 429, exRec 1]
    crs := some 4326 }

theorem block6_subset_targets_witness :
    exRec 429 ∈ (block6_gdf exFrameA).records ∧
    ((exRec 429).Ward_No ∈ block6_wards ∧ exRec 429 ∈ exFrameA.records) :=
  ⟨by decide, block6_subset_targets exFrameA (exRec 429) (by decide)⟩

/-- C8: each subset keeps the original collection's record order: the
highlighted and context subsets are subsequences of the cleaned collection,
selected by the membership test and its negation. -/
theorem subset_order_preserved (f : CleanFrame) :
    List.Sublist (block6_gdf f).records f.records ∧
    List.Sublist (other_gdf f).records f.records ∧
    (∀ r ∈ (block6_gdf f).records, isin_block6 r = true) ∧
    (∀ r ∈ (other_gdf f).records, isin_block6 r = false) := by
  refine ⟨List.filter_sublist _, List.filter_sublist _, ?_, ?_⟩
  · intro r h
    exact (List.mem_filter.mp h).2
  · intro r h
    have h2 := (List.mem_filter.mp h).2
    simpa using h2

/-- C3: for a 600-record cleaned collection in which exactly four records
carry a Block 6 identifier (two of the six target identifiers being absent),
the highlighted subset holds exactly those four records and the context
subset holds the other 596. -/
theorem scenario_four_of_six (f : CleanFrame)
    (hlen : f.records.length = 600)
    (h4 : f.records.countP (fun r => isin_block6 r) = 4) :
    (block6_gdf f).records.length = 4 ∧
    (other_gdf f).records.length = 596 ∧
    (∀ r ∈ f.records, (r ∈ (block6_gdf f).records ↔ r.Ward_No ∈ block6_wards)) ∧
    (∀ r ∈ f.records, (r ∈ (other_gdf f).records ↔ r.Ward_No ∉ block6_wards)) := by
  have hb : (block6_gdf f).records.length = 4 := by
    show (f.records.filter (fun r => isin_block6 r)).length = 4
    rw [← List.countP_eq_length_filter]
    exact h4
  have hsum : (block6_gdf f).records.length + (other_gdf f).records.length
      = f.records.length :=
    (List.length_eq_length_filter_add (fun r => isin_block6 r)).symm
  refine ⟨hb, by omega, ?_, ?_⟩
  · intro r hr
    constructor
    · intro h
      exact (isin_block6_iff r).mp (List.mem_filter.mp h).2
    · intro h
      exact List.mem_filter.mpr ⟨hr, (isin_block6_iff r).mpr h⟩
  · intro r hr
    constructor
    · intro h
      have h2 := (List.mem_filter.mp h).2
      simp only [Bool.not_eq_true'] at h2
      intro hmem
      rw [(isin_block6_iff r).mpr hmem] at h2
      cases h2
    · intro h
      refine List.mem_filter.mpr ⟨hr, ?_⟩
      have : isin_block6 r = false := by
        cases hcase : isin_block6 r
        · rfl
        · exact absurd ((isin_block6_iff r).mp hcase) h
      simp [this]

/-- The concrete 600-record scenario collection: wards 1-428, the four
present target wards 429-432, then wards 435-602; wards 433 and 434 are
absent. -/
def scenario600 : CleanFrame :=
  { columns := ["Ward_No", "Population", "geometry"]
    records :=
      ((List.range' 1 428).map (fun n => exRec (Int.ofNat n)))
        ++ [exRec 429, exRec 430, exRec 431, exRec 432]
        ++ ((List.range' 435 168).map (fun n => exRec (Int.ofNat n)))
    crs := some 4326 }

set_option maxRecDepth 100000 in
theorem scenario_four_of_six_witness :
    scenario600.records.length = 600 ∧
    (block6_gdf scenario600).records.length = 4 ∧
    (other_gdf scenario600).records.length = 596 :=
  have h := scenario_four_of_six scenario600 (by rfl) (by rfl)
  ⟨by rfl, h.1, h.2.1⟩

/-! ## Claims about the Projector -/

/-- The guard is false exactly when the CRS is defined and equals EPSG:4326. -/
theorem crs_mismatch_eq_false_iff (c : Option Int) :
    crs_mismatch c = false ↔ c = some 4326 := by
  cases c <;> simp [crs_mismatch]

/-- C4: the Projector is idempotent: running the reprojection step twice
gives the same state as running it once, and when the collection already
carries EPSG:4326 the step changes nothing at all. -/
theorem projector_idempotent (t : Point → Point) (s : SplitState) :
    projector t (projector t s) = projector t s ∧
    (s.gdf_clean.crs = some 4326 → projector t s = s) := by
  have key : ∀ s2 : SplitState, s2.gdf_clean.crs = some 4326 → projector t s2 = s2 := by
    intro s2 h2
    have hg : crs_mismatch s2.gdf_clean.crs = false :=
      (crs_mismatch_eq_false_iff _).mpr h2
    simp [projector, hg]
  refine ⟨?_, key s⟩
  cases hg : crs_mismatch s.gdf_clean.crs with
  | true =>
    have h1 : projector t s =
        { gdf_clean := to_crs t s.gdf_clean
          block6 := to_crs t s.block6
          other := to_crs t s.other } := by
      simp [projector, hg]
    rw [h1]
    exact key _ rfl
  | false =>
    have h1 : projector t s = s := by
      simp [projector, hg]
    rw [h1]
    exact h1

/-- C5: the Projector inspects the full collection's CRS: when it is defined
and equals EPSG:4326 no collection is reprojected; when it is undefined or
different, all three collections are reprojected to EPSG:4326. -/
theorem projector_guard (t : Point → Point) (s : SplitState) :
    (s.gdf_clean.crs = some 4326 → projector t s = s) ∧
    (s.gdf_clean.crs ≠ some 4326 →
      projector t s =
        { gdf_clean := to_crs t s.gdf_clean
          block6 := to_crs t s.block6
          other := to_crs t s.other } ∧
      (projector t s).gdf_clean.crs = some 4326) := by
  constructor
  · intro h
    have hg : crs_mismatch s.gdf_clean.crs = false :=
      (crs_mismatch_eq_false_iff _).mpr h
    simp [projector, hg]
  · intro h
    have hg : crs_mismatch s.gdf_clean.crs = true := by
      cases hcase : crs_mismatch s.gdf_clean.crs
      · exact absurd ((crs_mismatch_eq_false_iff _).mp hcase) h
      · rfl
    constructor
    · simp [projector, hg]
    · simp [projector, hg, to_crs]

/-- A concrete split state already carrying EPSG:4326. -/
def exSplit4326 : SplitState :=
  { gdf_clean := exFrameA, block6 := block6_gdf exFrameA, other := other_gdf exFrameA }

/-- A concrete split state with an undefined CRS. -/
def exSplitNone : SplitState :=
  { gdf_clean := { exFrameA with crs := none }
    block6 := block6_gdf { exFrameA with crs := none }
    other := other_gdf { exFrameA with crs := none } }

theorem projector_idempotent_witness :
    projector id (projector id exSplitNone) = projector id exSplitNone ∧
    projector id exSplit4326 = exSplit4326 :=
  ⟨(projector_idempotent id exSplitNone).1,
   (projector_idempotent id exSplit4326).2 (by decide)⟩

theorem projector_guard_witness :
    projector id exSplit4326 = exSplit4326 ∧
    projector id exSplitNone =
      { gdf_clean := to_crs id exSplitNone.gdf_clean
        block6 := to_crs id exSplitNone.block6
        other := to_crs id exSplitNone.other } :=
  ⟨(projector_guard id exSplit4326).1 (by decide),
   ((projector_guard id exSplitNone).2 (by decide)).1⟩

/-! ## Claims about the Cleaner -/

/-- The coercion raises exactly on non-numeric cells. -/
theorem astype_int_eq_none_iff (w : WardRaw) :
    astype_int w = none ↔ ∃ s, w = WardRaw.nonNumeric s := by
  cases w <;> simp [astype_int]

/-- What a successful single-record cleanup yields. -/
theorem cleanRecord_spec (hs : Bool) (r : RawRec) (c : CleanRec)
    (h : cleanRecord hs r = some c) :
    astype_int r.Ward_No = some c.Ward_No ∧
    c.Population = (if hs then some r.popVal else none) ∧
    c.geometry = r.geometry := by
  unfold cleanRecord at h
  cases ha : astype_int r.Ward_No with
  | none =>
    rw [ha] at h
    simp at h
  | some w =>
    rw [ha] at h
    simp only [Option.map_some', Option.some.injEq] at h
    rw [← h]
    exact ⟨rfl, rfl, rfl⟩

/-- Single-record cleanup succeeds exactly when the coercion of the cell succeeds. -/
theorem cleanRecord_isSome (hs : Bool) (r : RawRec) :
    (cleanRecord hs r).isSome = (astype_int r.Ward_No).isSome := by
  unfold cleanRecord
  cases astype_int r.Ward_No <;> rfl

/-- A successful column cleanup cleans the records pointwise, in order. -/
theorem cleanRecords_sound (hs : Bool) :
    ∀ (rs : List RawRec) (cs : List CleanRec), cleanRecords hs rs = some cs →
      List.Forall₂ (fun r c => cleanRecord hs r = some c) rs cs := by
  intro rs
  induction rs with
  | nil =>
    intro cs h
    simp only [cleanRecords, Option.some.injEq] at h
    rw [← h]
    exact List.Forall₂.nil
  | cons r rs ih =>
    intro cs h
    unfold cleanRecords at h
    cases hr : cleanRecord hs r with
    | none =>
      rw [hr] at h
      cases cleanRecords hs rs <;> simp at h
    | some c =>
      cases hrs : cleanRecords hs rs with
      | none =>
        rw [hr, hrs] at h
        simp at h
      | some cs2 =>
        rw [hr, hrs] at h
        simp only [Option.some.injEq] at h
        rw [← h]
        exact List.Forall₂.cons hr (ih cs2 hrs)

/-- When every cell coerces, the column cleanup succeeds. -/
theorem cleanRecords_complete (hs : Bool) (rs : List RawRec)
    (h : ∀ r ∈ rs, (astype_int r.Ward_No).isSome) :
    ∃ cs, cleanRecords hs rs = some cs := by
  induction rs with
  | nil => exact ⟨[], rfl⟩
  | cons r rs ih =>
    obtain ⟨cs, hcs⟩ := ih (fun x hx => h x (List.mem_cons_of_mem _ hx))
    have hr : (cleanRecord hs r).isSome := by
      rw [cleanRecord_isSome]
      exact h r (List.mem_cons_self _ _)
    obtain ⟨c, hc⟩ := Option.isSome_iff_exists.mp hr
    refine ⟨c :: cs, ?_⟩
    unfold cleanRecords
    rw [hc, hcs]

/-- The column cleanup raises exactly when some cell is non-numeric. -/
theorem cleanRecords_none_iff (hs : Bool) (rs : List RawRec) :
    cleanRecords hs rs = none ↔ ∃ r ∈ rs, astype_int r.Ward_No = none := by
  constructor
  · intro h
    by_contra hno
    push_neg at hno
    obtain ⟨cs, hcs⟩ := cleanRecords_complete hs rs
      (fun r hr => Option.ne_none_iff_isSome.mp (hno r hr))
    rw [hcs] at h
    cases h
  · intro hbad
    induction rs with
    | nil => simp at hbad
    | cons r rs ih =>
      obtain ⟨x, hx, hnone⟩ := hbad
      rcases List.mem_cons.mp hx with heq | hx2
      · have hr : cleanRecord hs x = none := by
          unfold cleanRecord
          rw [hnone]
          rfl
        unfold cleanRecords
        rw [← heq, hr]
      · have hrs := ih ⟨x, hx2, hnone⟩
        unfold cleanRecords
        rw [hrs]
        cases cleanRecord hs r <;> rfl

/-- What a successful whole-frame cleanup yields. -/
theorem cleanup_ok_spec (f : RawFrame) (cf : CleanFrame)
    (h : cleanup f = .ok cf) :
    cleanRecords (f.columns.contains "SUM_Final_") f.records = some cf.records ∧
    cf.columns = renameColumns f.columns ∧ cf.crs = f.crs := by
  unfold cleanup at h
  cases hrec : cleanRecords (f.columns.contains "SUM_Final_") f.records with
  | none =>
    rw [hrec] at h
    cases h
  | some recs =>
    rw [hrec] at h
    simp only [Except.ok.injEq] at h
    rw [← h]
    exact ⟨rfl, rfl, rfl⟩

/-- The canonical population column is always present after cleanup. -/
theorem population_mem_renameColumns (cols : List String) :
    "Population" ∈ renameColumns cols := by
  unfold renameColumns
  by_cases h : cols.contains "SUM_Final_"
  · rw [if_pos h]
    have hmem : "SUM_Final_" ∈ cols := by simpa using h
    exact List.mem_map.mpr ⟨"SUM_Final_", hmem, by simp⟩
  · rw [if_neg h]
    simp

/-- From a pointwise relation between two lists, every right element is
related to some left element. -/
theorem forall2_exists_left {α β : Type} {R : α → β → Prop} :
    ∀ {xs : List α} {ys : List β}, List.Forall₂ R xs ys → ∀ y ∈ ys, ∃ x, R x y := by
  intro xs ys h
  induction h with
  | nil =>
    intro y hy
    cases hy
  | cons hR hF ih =>
    intro y hy
    rcases List.mem_cons.mp hy with heq | hy2
    · exact ⟨_, heq ▸ hR⟩
    · exact ih y hy2

/-- C6: the Cleaner looks only for the exact column name `SUM_Final_`: when it
is present it is renamed to `Population` (carrying the values over); when it
is absent, cleanup still succeeds (given coercible identifiers) and every
record's canonical `Population` attribute is present but null. -/
theorem population_column_handling (f : RawFrame) :
    (f.columns.contains "SUM_Final_" = true →
      ∀ cf, cleanup f = .ok cf →
        cf.columns = f.columns.map (fun c => if c = "SUM_Final_" then "Population" else c) ∧
        "Population" ∈ cf.columns ∧
        List.Forall₂ (fun (r : RawRec) (c : CleanRec) => c.Population = some r.popVal)
          f.records cf.records) ∧
    (f.columns.contains "SUM_Final_" = false →
      (∀ r ∈ f.records, (astype_int r.Ward_No).isSome) →
      ∃ cf, cleanup f = .ok cf ∧ "Population" ∈ cf.columns ∧
        ∀ c ∈ cf.records, c.Population = none) := by
  constructor
  · intro hcol cf hok
    obtain ⟨hrecs, hcols, _⟩ := cleanup_ok_spec f cf hok
    refine ⟨?_, ?_, ?_⟩
    · rw [hcols]
      unfold renameColumns
      rw [if_pos hcol]
    · rw [hcols]
      exact population_mem_renameColumns _
    · refine (cleanRecords_sound _ _ _ hrecs).imp ?_
      intro r c hc
      have h2 := (cleanRecord_spec _ r c hc).2.1
      rw [hcol] at h2
      simpa using h2
  · intro hcol hall
    obtain ⟨cs, hcs⟩ := cleanRecords_complete (f.columns.contains "SUM_Final_") f.records hall
    refine ⟨⟨renameColumns f.columns, cs, f.crs⟩, ?_, ?_, ?_⟩
    · unfold cleanup
      rw [hcs]
    · exact population_mem_renameColumns _
    · intro c hc
      obtain ⟨r, hrc⟩ := forall2_exists_left (cleanRecords_sound _ _ _ hcs) c hc
      have := (cleanRecord_spec _ r c hrc).2.1
      rw [hcol] at this
      simpa using this

/-- A concrete loaded frame lacking the population column. -/
def exNoPop : RawFrame :=
  { columns := ["Ward_No", "geometry"]
    records := [{ Ward_No := .numeric 7, popVal := 0, geometry := [] }]
    crs := some 4326 }

/-- A concrete loaded frame with the population column. -/
def exWithPop : RawFrame :=
  { columns := ["Ward_No", "SUM_Final_", "geometry"]
    records := [{ Ward_No := .numeric 7, popVal := 12, geometry := [] }]
    crs := some 4326 }

/-- The cleaned form of `exWithPop`. -/
def exWithPopClean : CleanFrame :=
  { columns := ["Ward_No", "Population", "geometry"]
    records := [{ Ward_No := 7, Population := some 12, geometry := [] }]
    crs := some 4326 }

theorem population_column_handling_witness :
    (∃ cf, cleanup exNoPop = .ok cf ∧ "Population" ∈ cf.columns ∧
      ∀ c ∈ cf.records, c.Population = none) ∧
    ("Population" ∈ exWithPopClean.columns ∧
      List.Forall₂ (fun (r : RawRec) (c : CleanRec) => c.Population = some r.popVal)
        exWithPop.records exWithPopClean.records) :=
  ⟨(population_column_handling exNoPop).2 (by decide) (by decide),
   have h := (population_column_handling exWithPop).1 (by decide) exWithPopClean (by rfl)
   ⟨h.2.1, h.2.2⟩⟩


/-- C7: the identifier coercion raises exactly when some `Ward_No` cell is
non-numeric, and on success every cleaned identifier is the integer
conversion of the corresponding input cell. -/
theorem ward_coercion_behavior (f : RawFrame) :
    ((∃ msg, cleanup f = .error msg) ↔
      (∃ r ∈ f.records, ∃ s, r.Ward_No = WardRaw.nonNumeric s)) ∧
    (∀ cf, cleanup f = .ok cf →
      List.Forall₂ (fun (r : RawRec) (c : CleanRec) => astype_int r.Ward_No = some c.Ward_No)
        f.records cf.records) := by
  constructor
  · constructor
    · rintro ⟨msg, hmsg⟩
      unfold cleanup at hmsg
      cases hrec : cleanRecords (f.columns.contains "SUM_Final_") f.records with
      | none =>
        obtain ⟨r, hr, hnone⟩ := (cleanRecords_none_iff _ _).mp hrec
        exact ⟨r, hr, (astype_int_eq_none_iff _).mp hnone⟩
      | some recs =>
        rw [hrec] at hmsg
        cases hmsg
    · rintro ⟨r, hr, s, hs⟩
      have hnone : astype_int r.Ward_No = none := by
        rw [hs]
        rfl
      have hrec := (cleanRecords_none_iff (f.columns.contains "SUM_Final_") f.records).mpr
        ⟨r, hr, hnone⟩
      refine ⟨"invalid literal for int() with base 10", ?_⟩
      unfold cleanup
      rw [hrec]
  · intro cf hok
    exact (cleanRecords_sound _ _ _ (cleanup_ok_spec f cf hok).1).imp
      (fun r c hc => (cleanRecord_spec _ r c hc).1)

/-- A concrete loaded frame with a non-numeric ward identifier cell. -/
def exBadWard : RawFrame :=
  { columns := ["Ward_No", "geometry"]
    records := [{ Ward_No := .nonNumeric "abc", popVal := 0, geometry := [] }]
    crs := some 4326 }

/-- The cleaned form of `exNoPop`. -/
def exNoPopClean : CleanFrame :=
  { columns := ["Ward_No", "geometry", "Population"]
    records := [{ Ward_No := 7, Population := none, geometry := [] }]
    crs := some 4326 }

theorem ward_coercion_behavior_witness :
    (∃ msg, cleanup exBadWard = .error msg) ∧
    List.Forall₂ (fun (r : RawRec) (c : CleanRec) => astype_int r.Ward_No = some c.Ward_No)
      exNoPop.records exNoPopClean.records :=
  ⟨(ward_coercion_behavior exBadWard).1.mpr
      ⟨{ Ward_No := .nonNumeric "abc", popVal := 0, geometry := [] }, by decide, "abc", rfl⟩,
   (ward_coercion_behavior exNoPop).2 exNoPopClean (by rfl)⟩

/-! ## Claim about the script lifecycle (Loader / Cleaner) -/

/-- A concrete loaded frame with the raw population column and a numeric
ward identifier. -/
def ex9 : RawFrame :=
  { columns := ["Ward_No", "SUM_Final_", "geometry"]
    records := [{ Ward_No := .numeric 1, popVal := 5, geometry := [] }]
    crs := some 32643 }

/-- C9 counterexample: the Cleaner does not mutate the loader's collection.
After the clean step, the loaded frame `gdf` still carries the raw column
name `SUM_Final_` and not the canonical name `Population`; only the cleaned
copy `gdf_clean` carries the canonical name. -/
theorem loader_not_mutated_cex :
    (clean_step (load_step ex9)).map
        (fun st => (st.gdf.columns.contains "Population",
                    st.gdf.columns.contains "SUM_Final_",
                    st.gdf_clean.columns.contains "Population")) =
      .ok (false, true, true) := by
  rfl

/-- C9 amended: the Cleaner operates on a copy of the loaded collection:
after it runs, the loader's collection is unchanged, while the cleaned copy
carries the canonical population attribute name and the integer coercion of
every ward identifier. -/
theorem cleaner_operates_on_copy (g : RawFrame) (st : CleanedState)
    (h : clean_step g = .ok st) :
    st.gdf = g ∧
    "Population" ∈ st.gdf_clean.columns ∧
    List.Forall₂ (fun (r : RawRec) (c : CleanRec) => astype_int r.Ward_No = some c.Ward_No)
      g.records st.gdf_clean.records := by
  unfold clean_step at h
  cases hc : cleanup g with
  | error e =>
    rw [hc] at h
    cases h
  | ok cf =>
    rw [hc] at h
    simp only [Except.map, Except.ok.injEq] at h
    rw [← h]
    refine ⟨rfl, ?_, ?_⟩
    · have hcols := (cleanup_ok_spec g cf hc).2.1
      show "Population" ∈ cf.columns
      rw [hcols]
      exact population_mem_renameColumns _
    · exact (cleanRecords_sound _ _ _ (cleanup_ok_spec g cf hc).1).imp
        (fun r c hrc => (cleanRecord_spec _ r c hrc).1)

/-- The script state after cleaning `ex9`. -/
def exSt9 : CleanedState :=
  { gdf := ex9
    gdf_clean :=
      { columns := ["Ward_No", "Population", "geometry"]
        records := [{ Ward_No := 1, Population := some 5, geometry := [] }]
        crs := some 32643 } }

theorem cleaner_operates_on_copy_witness :
    exSt9.gdf = ex9 ∧
    "Population" ∈ exSt9.gdf_clean.columns ∧
    List.Forall₂ (fun (r : RawRec) (c : CleanRec) => astype_int r.Ward_No = some c.Ward_No)
      ex9.records exSt9.gdf_clean.records :=
  cleaner_operates_on_copy ex9 exSt9 (by rfl)

/-! ## Claim about the Renderer's map center -/

/-- C10: when no record of the cleaned collection carries a Block 6
identifier, the highlighted subset is empty and the Renderer's map center is
undefined (the script fails at `center.y` before any output is produced);
when the highlighted subset has a record with nonempty geometry, the center
is defined, so a non-empty highlighted subset is a precondition of
rendering. -/
theorem empty_highlight_center_undefined (f : CleanFrame) :
    ((∀ r ∈ f.records, isin_block6 r = false) → map_center (block6_gdf f) = none) ∧
    ((∃ r ∈ (block6_gdf f).records, r.geometry ≠ []) →
      (map_center (block6_gdf f)).isSome = true) := by
  constructor
  · intro h
    have hnil : (block6_gdf f).records = [] := by
      show f.records.filter (fun r => isin_block6 r) = []
      rw [List.filter_eq_nil_iff]
      intro a ha
      rw [h a ha]
      simp
    rw [map_center, unary_union, hnil]
    rfl
  · rintro ⟨r, hr, hge⟩
    obtain ⟨p, hp⟩ := List.exists_mem_of_ne_nil r.geometry hge
    have hmem : p ∈ unary_union (block6_gdf f) := by
      rw [unary_union, List.mem_flatten]
      exact ⟨r.geometry, List.mem_map.mpr ⟨r, hr, rfl⟩, hp⟩
    cases hu : unary_union (block6_gdf f) with
    | nil =>
      rw [hu] at hmem
      cases hmem
    | cons a l =>
      rw [map_center, hu]
      rfl

/-- A concrete cleaned collection with no Block 6 ward. -/
def exFrameNoB6 : CleanFrame :=
  { columns := ["Ward_No", "Population", "geometry"]
    records := [exRec 100]
    crs := some 4326 }

/-- A concrete highlighted record with nonempty geometry. -/
def exRecG : CleanRec :=
  { Ward_No := 429, Population := none, geometry := [(0, 0)] }

/-- A concrete cleaned collection whose Block 6 subset is nonempty. -/
def exFrameB6 : CleanFrame :=
  { columns := ["Ward_No", "Population", "geometry"]
    records := [exRecG]
    crs := some 4326 }

theorem empty_highlight_center_undefined_witness :
    map_center (block6_gdf exFrameNoB6) = none ∧
    (map_center (block6_gdf exFrameB6)).isSome = true :=
  ⟨(empty_highlight_center_undefined exFrameNoB6).1 (by decide),
   (empty_highlight_center_undefined exFrameB6).2 ⟨exRecG, by decide, by decide⟩⟩

theorem partition_exhaustive_disjoint_witness :
    ((block6_gdf exFrameA).records.length + (other_gdf exFrameA).records.length
      = exFrameA.records.length) ∧
    (exRec 429 ∈ exFrameA.records ↔
      (exRec 429 ∈ (block6_gdf exFrameA).records ∨ exRec 429 ∈ (other_gdf exFrameA).records)) :=
  ⟨(partition_exhaustive_disjoint exFrameA).2.2,
   (partition_exhaustive_disjoint exFrameA).1 (exRec 429)⟩

theorem subset_order_preserved_witness :
    List.Sublist (block6_gdf exFrameA).records exFrameA.records ∧
    List.Sublist (other_gdf exFrameA).records exFrameA.records :=
  ⟨(subset_order_preserved exFrameA).1, (subset_order_preserved exFrameA).2.1⟩
